import Mathlib

/-!
Verification of the credential-locking and CSV-export logic of the
`db2_helpers` package (`src/db2_helpers/db2_helpers.py` and
`src/db_commands/db_import_export.py`).

The Python code is shallowly embedded:

* Python strings that may hold Fernet tokens become the inductive `FStr`;
  the `cryptography.fernet.Fernet` library collaborator is modelled
  symbolically (`fernetEncrypt` / `fernetDecrypt`): decryption succeeds
  exactly under the key that produced the token, matching Fernet's
  authenticated-encryption contract.
* `hashlib.blake2b(...).hexdigest()` is modelled by the injective tagging
  function `blake2bHexdigest` (a collision-free idealisation of the hash).
* The secret-key file in the user's home directory and the per-environment
  settings pickle files become the explicit state `World`; `os.chmod` and
  write failures (`PermissionError`, `FileNotFoundError`) are driven by the
  failure-injection record `FsFlags`.
* Functions that can raise an uncaught Python exception return
  `Except Unit _`; a Python function returning an empty (falsy)
  `OrderedDict` returns `none`.
* `Fernet.generate_key()` and interactive `getpass` prompts are modelled by
  explicit oracle arguments (`fresh`, `prompt*`).
-/

/-- Model of a Python string that may hold a Fernet token: `raw s` is an
ordinary string, `tok key inner` is the token produced by encrypting
`inner` under the Fernet key `key`. -/
inductive FStr where
  | raw : String → FStr
  | tok : String → FStr → FStr
deriving DecidableEq

/-- Model of `Fernet(key).encrypt`: producing a token tagged with the key. -/
def fernetEncrypt (key : String) (m : FStr) : FStr := FStr.tok key m

/-- Model of `Fernet(key).decrypt`: succeeds exactly on a token produced
under the same key; on anything else the library raises `InvalidToken`,
modelled by `none`. -/
def fernetDecrypt (key : String) : FStr → Option FStr
  | FStr.raw _ => none
  | FStr.tok k v => if k = key then some v else none

/-- Python truthiness of a string value (`if s:`): empty strings are falsy. -/
def fstrTruthy : FStr → Bool
  | FStr.raw s => s ≠ ""
  | FStr.tok _ _ => true

/-- Model of `Fernet(str.encode(s))` key validation: a Fernet key must be an
ordinary (non-token, non-empty) string; otherwise the constructor raises
`ValueError`, modelled by `none`. -/
def fernetKeyOf : FStr → Option String
  | FStr.raw s => if s = "" then none else some s
  | FStr.tok _ _ => none

/-- Model of `blake2b(str.encode(p)).hexdigest()`: an injective tagging
function (idealised collision-free hash). -/
def blake2bHexdigest (p : String) : String := "blake2b:" ++ p

/-- Model of `password_to_key` as used by the key-file state machine: a
deterministic injective key-derivation function (the PBKDF2 structure of
the real `password_to_key` is embedded separately as `password_to_key`
below). -/
def password_to_key_model (p : String) : String := "pbkdf2:" ++ p

/-- The secret-key record pickled in `~/.db2_helpers.secret.key`
(`_default_secretkey` gives the field layout).  `secret` is `none` when the
Python value is `None`; `hash` is `none` when the Python value is `None`. -/
structure SecretKeyRec where
  secret : Option FStr
  locked : Bool
  hash : Option String
  secrethash : String
deriving DecidableEq

/-- `_default_secretkey` from the source. -/
def defaultSecretkey : SecretKeyRec :=
  { secret := none, locked := false, hash := some "", secrethash := "" }

/-- The per-environment connection settings record (`_default_settings`
field layout).  `pwd` is an `FStr` since it is Fernet-encrypted at rest. -/
structure SettingsRec where
  database : String
  hostname : String
  protocol : String
  port : String
  uid : String
  pwd : FStr
  environment : String
  security : String
  servercert : String
  secrethash : String
deriving DecidableEq

/-- A file on disk: its pickled content and its permission mode bits. -/
structure StoredFile (α : Type) where
  content : α
  mode : Nat
deriving DecidableEq

/-- The file-system state the helpers read and write: the single secret-key
file and the settings pickle files, keyed by file name. -/
structure World where
  keyfile : Option (StoredFile SecretKeyRec)
  settings : List (String × StoredFile SettingsRec)
deriving DecidableEq

/-- Failure injection for the caught I/O errors (`PermissionError` /
`FileNotFoundError` on write, `PermissionError` on chmod) and the mode an
`open(..., "wb")` creation gives a fresh file. -/
structure FsFlags where
  keyWriteOk : Bool
  keyChmodOk : Bool
  setWriteOk : Bool
  setChmodOk : Bool
  createMode : Nat
deriving DecidableEq

/-- `stat.S_IRUSR` (octal 400). -/
def S_IRUSR : Nat := 256

/-- `stat.S_IWUSR` (octal 200). -/
def S_IWUSR : Nat := 128

/-- The mode both writers chmod their file to: `stat.S_IRUSR | stat.S_IWUSR`. -/
def ownerRW : Nat := Nat.lor S_IRUSR S_IWUSR

/-- Flags for a run in which every file operation succeeds. -/
def fsOk : FsFlags :=
  { keyWriteOk := true, keyChmodOk := true, setWriteOk := true,
    setChmodOk := true, createMode := 420 }

/-- Shallow embedding of `db_keys_set`.  `fresh` models the string returned
by `Fernet.generate_key()` when `newkey` is set.  The empty `OrderedDict`
returned on a caught write/chmod failure is modelled by `none`.  Writing
over an existing file keeps its mode; creating one uses `fl.createMode`;
the final `os.chmod` sets `ownerRW`. -/
def db_keys_set (fl : FsFlags) (fresh : String) (secretkey : SecretKeyRec)
    (newkey : Bool) (w : World) : Option SecretKeyRec × World :=
  let sk := if newkey then
      { secret := some (FStr.raw fresh), locked := false, hash := none,
        secrethash := blake2bHexdigest fresh }
    else secretkey
  if fl.keyWriteOk then
    let mode := match w.keyfile with
      | some f => f.mode
      | none => fl.createMode
    if fl.keyChmodOk then
      (some sk, { w with keyfile := some ⟨sk, ownerRW⟩ })
    else
      (none, { w with keyfile := some ⟨sk, mode⟩ })
  else (none, w)

/-- The body of `db_keys_lock` once the pass phrase `usepass` has been
determined: an empty pass phrase skips encryption but still rewrites the
record; encrypting a `None` secret raises `TypeError`, caught by the broad
`except` (return `False`). -/
def lockWith (fl : FsFlags) (usepass : String) (sk : SecretKeyRec)
    (w : World) : Bool × World :=
  if usepass = "" then (true, (db_keys_set fl "" sk false w).2)
  else
    match sk.secret with
    | none => (false, w)
    | some sv =>
      let sk1 := { sk with
        secret := some (fernetEncrypt (password_to_key_model usepass) sv),
        locked := true,
        hash := some (blake2bHexdigest usepass) }
      (true, (db_keys_set fl "" sk1 false w).2)

/-- The prompted branch of `db_keys_lock`: two `getpass` reads that must
match. -/
def lockPrompted (fl : FsFlags) (prompt1 prompt2 : String)
    (sk : SecretKeyRec) (w : World) : Bool × World :=
  if prompt1 = prompt2 then lockWith fl prompt1 sk w else (false, w)

/-- Shallow embedding of `db_keys_lock`.  A missing key file raises
`FileNotFoundError`, caught by the broad `except` (return `False`); an
already-locked file returns `True` without touching the file. -/
def db_keys_lock (fl : FsFlags) (passphrase : Option String)
    (prompt1 prompt2 : String) (w : World) : Bool × World :=
  match w.keyfile with
  | none => (false, w)
  | some f =>
    let sk := f.content
    if sk.locked then (true, w)
    else
      match passphrase with
      | some p =>
        if p = "" then lockPrompted fl prompt1 prompt2 sk w
        else lockWith fl p sk w
      | none => lockPrompted fl prompt1 prompt2 sk w

/-- The body of `db_keys_unlock` once the pass phrase is determined: an
empty pass phrase falls through to `return True` without writing; on a
digest mismatch the file is untouched and the result is `False`; a failed
decryption (or a `None` secret) is caught by the broad `except`. -/
def unlockWith (fl : FsFlags) (usepass : String) (sk : SecretKeyRec)
    (w : World) : Bool × World :=
  if usepass = "" then (true, w)
  else
    if sk.hash = some (blake2bHexdigest usepass) then
      match sk.secret with
      | none => (false, w)
      | some sv =>
        match fernetDecrypt (password_to_key_model usepass) sv with
        | none => (false, w)
        | some v =>
          (true, (db_keys_set fl ""
            { sk with secret := some v, locked := false } false w).2)
    else (false, w)

/-- Shallow embedding of `db_keys_unlock`.  A missing key file gives
`False`; an already-unlocked file returns `True` without touching it. -/
def db_keys_unlock (fl : FsFlags) (passphrase : Option String)
    (prompt1 : String) (w : World) : Bool × World :=
  match w.keyfile with
  | none => (false, w)
  | some f =>
    let sk := f.content
    if sk.locked then
      match passphrase with
      | some p => if p = "" then unlockWith fl prompt1 sk w
                  else unlockWith fl p sk w
      | none => unlockWith fl prompt1 sk w
    else (true, w)

/-- The `getpass` retry loop of `db_keys_get`: up to nine prompted attempts
are checked against the stored digest; the tenth read is used regardless.
`promptFn i` models the string entered at attempt `i`. -/
def promptLoop (target : Option String) (promptFn : Nat → String) : String :=
  match ((List.range 9).map (fun i => promptFn (i + 1))).find?
      (fun p => target = some (blake2bHexdigest p)) with
  | some p => p
  | none => promptFn 10

/-- The locked branch of `db_keys_get` once the pass phrase is known: the
`try` around it only catches `FileNotFoundError`, so a `TypeError` on a
`None` secret or the `InvalidToken` from `Fernet.decrypt` propagates to the
caller (`Except.error`).  The file on disk is not rewritten. -/
def keysGetLocked (passphrase : String) (sk : SecretKeyRec) (w : World) :
    Except Unit (Option SecretKeyRec) × World :=
  match sk.secret with
  | none => (Except.error (), w)
  | some sv =>
    match fernetDecrypt (password_to_key_model passphrase) sv with
    | none => (Except.error (), w)
    | some v =>
      (Except.ok (some { sk with secret := some v, locked := false }), w)

/-- Shallow embedding of `db_keys_get`.  A missing key file is caught and a
new key record is generated and saved (`db_keys_set` with `newkey`); a
locked record is temporarily decrypted with the supplied or prompted pass
phrase; an unlocked record is returned as stored. -/
def db_keys_get (fl : FsFlags) (fresh : String) (password : Option String)
    (promptFn : Nat → String) (prompt : Bool) (w : World) :
    Except Unit (Option SecretKeyRec) × World :=
  match w.keyfile with
  | none =>
    let r := db_keys_set fl fresh defaultSecretkey true w
    (Except.ok r.1, r.2)
  | some f =>
    let sk := f.content
    if sk.locked then
      let passphrase :=
        match password with
        | some p =>
          if p = "" then (if prompt then promptLoop sk.hash promptFn else "")
          else p
        | none => if prompt then promptLoop sk.hash promptFn else ""
      keysGetLocked passphrase sk w
    else (Except.ok (some sk), w)

/-- The settings pickle file name:
`environment.lower() + "_" + hostname.lower() + "_" + database.lower() + ".pickle"`. -/
def settingsFname (database hostname environment : String) : String :=
  environment.toLower ++ "_" ++ hostname.toLower ++ "_" ++
    database.toLower ++ ".pickle"

/-- Reading a settings pickle file: `none` models `FileNotFoundError`. -/
def lookupSettings (w : World) (fname : String) :
    Option (StoredFile SettingsRec) :=
  (w.settings.find? (fun kv => kv.1 = fname)).map (fun kv => kv.2)

/-- Writing a settings pickle file: overwriting keeps the existing mode,
creation uses `fl.createMode`. -/
def writeSettings (fl : FsFlags) (w : World) (fname : String)
    (s : SettingsRec) : World :=
  let mode := match lookupSettings w fname with
    | some f => f.mode
    | none => fl.createMode
  { w with settings :=
      (fname, ⟨s, mode⟩) :: w.settings.filter (fun kv => kv.1 ≠ fname) }

/-- `os.chmod(fname, stat.S_IRUSR | stat.S_IWUSR)` on a settings file. -/
def chmodSettings (w : World) (fname : String) : World :=
  { w with settings := (w.settings.map
      (fun kv => if kv.1 = fname then (kv.1, ⟨kv.2.content, ownerRW⟩) else kv)) }

/-- Shallow embedding of `db_load_settings`.  The `db_keys_get` call sits
outside the `try`, so its exceptions propagate; everything inside the `try`
(missing file, wrong secret key, failed decryption) is caught and yields
`None`.  An empty key record (falsy) skips decryption and returns the
settings with the password still encrypted. -/
def db_load_settings (fl : FsFlags) (fresh : String)
    (password : Option String) (promptFn : Nat → String)
    (database hostname environment : String) (w : World) :
    Except Unit (Option SettingsRec) × World :=
  match db_keys_get fl fresh password promptFn true w with
  | (Except.error _, w1) => (Except.error (), w1)
  | (Except.ok keys, w1) =>
    let fname := settingsFname database hostname environment
    match lookupSettings w1 fname with
    | none => (Except.ok none, w1)
    | some f =>
      let settings := f.content
      match keys with
      | none => (Except.ok (some settings), w1)
      | some ks =>
        if settings.secrethash = ks.secrethash then
          match ks.secret with
          | none => (Except.ok none, w1)
          | some ksv =>
            match fernetKeyOf ksv with
            | none => (Except.ok none, w1)
            | some key =>
              match fernetDecrypt key settings.pwd with
              | none => (Except.ok none, w1)
              | some v => (Except.ok (some { settings with pwd := v }), w1)
        else (Except.ok none, w1)

/-- The tail of `db_save_settings` once the key record `r.1` (and the world
`r.2` after a possible key regeneration) are in hand: `use_settings` is
built, written and chmodded.  Uncaught exceptions (`KeyError` on an empty
key record, `TypeError`/`ValueError` building the `Fernet`) are
`Except.error`; the caught `PermissionError` on write or chmod gives
`ok false`. -/
def saveWriteBack (fl : FsFlags) (settings : SettingsRec)
    (r : Option SecretKeyRec × World) : Except Unit Bool × World :=
  match r.1 with
  | none => (Except.error (), r.2)
  | some ks =>
    match ks.secret with
    | none => (Except.error (), r.2)
    | some sv =>
      match fernetKeyOf sv with
      | none => (Except.error (), r.2)
      | some key =>
        let use : SettingsRec := { settings with
          secrethash := ks.secrethash,
          pwd := fernetEncrypt key settings.pwd }
        let fname := settingsFname use.database use.hostname use.environment
        if fl.setWriteOk then
          let w2 := writeSettings fl r.2 fname use
          if fl.setChmodOk then (Except.ok true, chmodSettings w2 fname)
          else (Except.ok false, w2)
        else (Except.ok false, r.2)

/-- Shallow embedding of `db_save_settings`.  `fresh1` feeds a possible key
generation inside `db_keys_get`, `fresh2` the explicit regeneration when
the loaded key record is falsy or has no usable secret; exceptions raised
by `db_keys_get` propagate (the call is outside every `try`). -/
def db_save_settings (fl : FsFlags) (fresh1 fresh2 : String)
    (password : Option String) (promptFn : Nat → String)
    (settings : SettingsRec) (w : World) : Except Unit Bool × World :=
  match db_keys_get fl fresh1 password promptFn true w with
  | (Except.error _, w1) => (Except.error (), w1)
  | (Except.ok keys0, w1) =>
    let needNew : Bool := match keys0 with
      | none => true
      | some ks => match ks.secret with
        | none => true
        | some sv => !(fstrTruthy sv)
    saveWriteBack fl settings
      (if needNew then db_keys_set fl fresh2 defaultSecretkey true w1
       else (keys0, w1))

/-- `str.encode`: byte values of a string (code points; the pass phrases
and the salt in the source are ASCII). -/
def strEncode (s : String) : List Nat := s.toList.map Char.toNat

/-- The fixed salt `b'2390489409578390'` of `password_to_key`. -/
def fixedSalt : List Nat := strEncode "2390489409578390"

/-- Byte-wise xor of two equal-length byte strings. -/
def xorBytes (a b : List Nat) : List Nat := List.zipWith Nat.xor a b

/-- Big-endian 4-byte block index, `INT(i)` of RFC 2898. -/
def int32be (i : Nat) : List Nat :=
  [i / 16777216 % 256, i / 65536 % 256, i / 256 % 256, i % 256]

/-- The chained-xor loop of PBKDF2: given `U_j` and the running xor `acc`,
performs `n` further PRF applications. -/
def pbkdf2Iter (prf : List Nat → List Nat → List Nat) (password : List Nat) :
    List Nat → List Nat → Nat → List Nat
  | _, acc, 0 => acc
  | u, acc, n + 1 =>
    let u2 := prf password u
    pbkdf2Iter prf password u2 (xorBytes acc u2) n

/-- `F(P, S, c, i)` of RFC 2898: `U_1 xor ... xor U_c` with
`U_1 = PRF(P, S || INT(i))`. -/
def pbkdf2F (prf : List Nat → List Nat → List Nat) (password salt : List Nat)
    (c i : Nat) : List Nat :=
  match c with
  | 0 => []
  | n + 1 =>
    let u1 := prf password (salt ++ int32be i)
    pbkdf2Iter prf password u1 u1 n

/-- PBKDF2 with PRF output length `hLen`: the first `dkLen` bytes of
`T_1 || T_2 || ...`.  `PBKDF2HMAC(algorithm=SHA256(), ...)` of the source
instantiates `prf` with HMAC-SHA256 (`hLen = 32`), a library collaborator
kept as a parameter. -/
def pbkdf2 (prf : List Nat → List Nat → List Nat) (hLen : Nat)
    (password salt : List Nat) (c dkLen : Nat) : List Nat :=
  List.take dkLen (List.flatten ((List.range ((dkLen + hLen - 1) / hLen)).map
    (fun i => pbkdf2F prf password salt c (i + 1))))

/-- The urlsafe base64 alphabet (`-` and `_` in place of `+` and `/`). -/
def b64Char (n : Nat) : Char :=
  "ABCDEFGHIJKLMNOPQRSTUVWXYZabcdefghijklmnopqrstuvwxyz0123456789-_".toList.getD n 'A'

/-- `base64.urlsafe_b64encode` on a byte string, with `=` padding. -/
def urlsafeB64Encode : List Nat → String
  | [] => ""
  | [a] =>
    let n := (a % 256) * 65536
    String.mk [b64Char (n / 262144), b64Char (n / 4096 % 64), '=', '=']
  | [a, b] =>
    let n := (a % 256) * 65536 + (b % 256) * 256
    String.mk [b64Char (n / 262144), b64Char (n / 4096 % 64),
      b64Char (n / 64 % 64), '=']
  | a :: b :: c :: rest =>
    let n := (a % 256) * 65536 + (b % 256) * 256 + c % 256
    String.mk [b64Char (n / 262144), b64Char (n / 4096 % 64),
      b64Char (n / 64 % 64), b64Char (n % 64)] ++ urlsafeB64Encode rest

/-- Shallow embedding of `password_to_key`: PBKDF2 over the given PRF
(HMAC-SHA256 in the source) with length 32, the fixed salt, and 100000
iterations, urlsafe-base64-encoded.  A pure function of the pass phrase:
no stored state is consulted. -/
def password_to_key (prf : List Nat → List Nat → List Nat)
    (passphrase : String) : String :=
  urlsafeB64Encode (pbkdf2 prf 32 (strEncode passphrase) fixedSalt 100000 32)

/-!  Model of `export_table` from `db_import_export.py`.  The database
driver and the `csv` module are external collaborators; what the function
itself decides — which files are truncated, unlinked and renamed, in which
order, and what record sequence is emitted — is embedded over an explicit
pair of files (the table's CSV file and the `tmp_` file) and an
environment describing the driver's behaviour on this call. -/

/-- One CSV record: the header row or a data row. -/
inductive CsvRec where
  | header : List String → CsvRec
  | row : List String → CsvRec
deriving DecidableEq

/-- The two files `export_table` touches: `<schema>-<table>.csv` and
`tmp_<schema>-<table>.csv`.  `none` means the file does not exist. -/
structure CsvFs where
  csv : Option (List CsvRec)
  tmp : Option (List CsvRec)
deriving DecidableEq

/-- Driver/file behaviour for one `export_table` call.
`prepareOk` — `ibm_db.prepare` does not raise; `columns` — result of
`get_columns` (`none` when it caught an error and returned `None`);
`executeRes` — `ibm_db.execute` (`none` = raises, `some b` = returns `b`);
`firstFetchOk` — the first `fetch_assoc`, issued before the tmp file is
opened, does not raise; `rows` — the row sequence the cursor then yields;
`rowFail` — `some k` when the fetch or `writerow` after `k` written rows
raises; `openTmpOk` — `open(filetmp, "w")` succeeds (truncating);
`unlinkOk` / `renameOk` — `filecsv.unlink` / `filetmp.rename` do not raise
for reasons other than a missing tmp file. -/
structure ExportEnv where
  prepareOk : Bool
  columns : Option (List String)
  executeRes : Option Bool
  firstFetchOk : Bool
  rows : List (List String)
  rowFail : Option Nat
  writeHeaders : Bool
  openTmpOk : Bool
  unlinkOk : Bool
  renameOk : Bool
deriving DecidableEq

/-- The tail of `export_table`: `filecsv.unlink(missing_ok=True)` then
`filetmp.rename(filecsv)`.  Renaming a missing tmp file raises
`FileNotFoundError` — after the CSV file has already been unlinked. -/
def finishExport (env : ExportEnv) (fs : CsvFs) : Bool × CsvFs :=
  if env.unlinkOk then
    let fs1 : CsvFs := { fs with csv := none }
    match fs1.tmp with
    | none => (false, fs1)
    | some t =>
      if env.renameOk then (true, { csv := some t, tmp := none })
      else (false, fs1)
  else (false, fs)

/-- The row-writing loop.  `base` is the tmp content after the header step.
With `fieldnames=None` (a failed `get_columns`) `DictWriter.writerow`
raises on the first row; with no rows it is never called. -/
def streamRows (env : ExportEnv) (fs : CsvFs) (cols : Option (List String))
    (base : List CsvRec) : Bool × CsvFs :=
  match cols with
  | none =>
    if env.rows = [] then finishExport env { fs with tmp := some base }
    else (false, { fs with tmp := some base })
  | some _ =>
    match env.rowFail with
    | some k =>
      (false, { fs with tmp := some (base ++ (env.rows.take k).map CsvRec.row) })
    | none => finishExport env { fs with tmp := some (base ++ env.rows.map CsvRec.row) }

/-- Shallow embedding of `export_table`.  Any exception inside the broad
`try` prints and returns `False`; on the success path the tmp file is
renamed over the CSV file. -/
def export_table (env : ExportEnv) (fs : CsvFs) : Bool × CsvFs :=
  if env.prepareOk then
    match env.executeRes with
    | none => (false, fs)
    | some false => finishExport env fs
    | some true =>
      if env.firstFetchOk then
        if env.openTmpOk then
          if env.writeHeaders then
            match env.columns with
            | none => (false, { fs with tmp := some [] })
            | some cs => streamRows env fs (some cs) [CsvRec.header cs]
          else streamRows env fs env.columns []
        else (false, fs)
      else (false, fs)
  else (false, fs)

/-! Helper lemmas shared by the claim theorems. -/

theorem stringAppendLeftCancel {a b c : String} (h : a ++ b = a ++ c) :
    b = c := by
  apply String.ext
  have h2 : a.data ++ b.data = a.data ++ c.data := by
    simpa [String.data_append] using congrArg String.data h
  exact List.append_cancel_left h2

theorem blake2bHexdigest_inj {p q : String}
    (h : blake2bHexdigest p = blake2bHexdigest q) : p = q :=
  stringAppendLeftCancel h

theorem password_to_key_model_inj {p q : String}
    (h : password_to_key_model p = password_to_key_model q) : p = q :=
  stringAppendLeftCancel h

theorem fernetDecrypt_fernetEncrypt (k : String) (m : FStr) :
    fernetDecrypt k (fernetEncrypt k m) = some m := by
  simp [fernetDecrypt, fernetEncrypt]

theorem tok_ne (k : String) (x : FStr) : FStr.tok k x ≠ x := by
  induction x generalizing k with
  | raw s => simp
  | tok k2 x ih =>
    intro h
    injection h with h1 h2
    exact ih k2 h2

/-! Theorems for the claims. -/

/-- C10: `db_keys_lock` on an already-locked stored record returns `True`
and leaves the key file unchanged, and `db_keys_unlock` on an
already-unlocked stored record returns `True` and leaves the file
unchanged: lock and unlock are idempotent on the stored key file. -/
theorem keys_lock_unlock_idempotent (fl : FsFlags) (pass : Option String)
    (p1 p2 p3 : String) (sk : SecretKeyRec) (m : Nat) (w : World)
    (hw : w.keyfile = some ⟨sk, m⟩) :
    (sk.locked = true → db_keys_lock fl pass p1 p2 w = (true, w)) ∧
    (sk.locked = false → db_keys_unlock fl pass p3 w = (true, w)) := by
  constructor
  · intro hl
    simp [db_keys_lock, hw, hl]
  · intro hl
    simp [db_keys_unlock, hw, hl]

def c10sk : SecretKeyRec :=
  { secret := some (FStr.raw "s"), locked := true, hash := some "",
    secrethash := "" }

def c10w : World := { keyfile := some ⟨c10sk, 384⟩, settings := [] }

/-- Witness for C10 at a concrete locked key file. -/
theorem keys_lock_unlock_idempotent_app :
    (c10sk.locked = true → db_keys_lock fsOk none "a" "b" c10w = (true, c10w)) ∧
    (c10sk.locked = false → db_keys_unlock fsOk none "c" c10w = (true, c10w)) :=
  keys_lock_unlock_idempotent fsOk none "a" "b" "c" c10sk 384 c10w rfl

/-- C5: on a locked key file, `db_keys_unlock` with a pass phrase whose
blake2b digest differs from the stored `hash` returns `False` and leaves
the key file on disk completely unchanged. -/
theorem unlock_wrong_passphrase_noop (fl : FsFlags) (p pr : String)
    (sk : SecretKeyRec) (m : Nat) (w : World)
    (hw : w.keyfile = some ⟨sk, m⟩) (hl : sk.locked = true)
    (hp : p ≠ "") (hh : sk.hash ≠ some (blake2bHexdigest p)) :
    db_keys_unlock fl (some p) pr w = (false, w) := by
  simp [db_keys_unlock, hw, hl, unlockWith, hp, hh]

def c5sk : SecretKeyRec :=
  { secret := some (FStr.tok (password_to_key_model "right") (FStr.raw "SEC")),
    locked := true, hash := some (blake2bHexdigest "right"), secrethash := "sh" }

def c5w : World := { keyfile := some ⟨c5sk, 384⟩, settings := [] }

/-- Witness for C5: unlocking with `"wrong"` against a key locked under
`"right"` fails and changes nothing. -/
theorem unlock_wrong_passphrase_noop_app :
    db_keys_unlock fsOk (some "wrong") "pr" c5w = (false, c5w) :=
  unlock_wrong_passphrase_noop fsOk "wrong" "pr" c5sk 384 c5w rfl rfl
    (by decide) (by decide)

/-- C1: on a stored record that is unlocked and holds a secret, locking
with a non-empty pass phrase and then unlocking with the same pass phrase
both return `True`, and the stored record again holds the original
plaintext secret with `locked = False`. -/
theorem keys_lock_unlock_roundtrip (p pr1 pr2 pr3 : String) (hp : p ≠ "")
    (sk : SecretKeyRec) (sv : FStr) (m : Nat) (w : World)
    (hw : w.keyfile = some ⟨sk, m⟩) (hl : sk.locked = false)
    (hs : sk.secret = some sv) :
    (db_keys_lock fsOk (some p) pr1 pr2 w).1 = true ∧
    (db_keys_unlock fsOk (some p) pr3 (db_keys_lock fsOk (some p) pr1 pr2 w).2).1 = true ∧
    (db_keys_unlock fsOk (some p) pr3 (db_keys_lock fsOk (some p) pr1 pr2 w).2).2.keyfile =
      some ⟨{ sk with
                secret := some sv, locked := false,
                hash := some (blake2bHexdigest p) }, ownerRW⟩ := by
  have hlock : db_keys_lock fsOk (some p) pr1 pr2 w =
      (true, { w with
                 keyfile := some ⟨{ sk with
                   secret := some (fernetEncrypt (password_to_key_model p) sv),
                   locked := true,
                   hash := some (blake2bHexdigest p) }, ownerRW⟩ }) := by
    simp [db_keys_lock, hw, hl, hp, lockWith, hs, db_keys_set, fsOk]
  rw [hlock]
  simp [db_keys_unlock, unlockWith, hp, fernetDecrypt, fernetEncrypt,
    db_keys_set, fsOk]

/-- C4 (amended): on a locked key file with a supplied non-empty password,
`db_keys_get` returns the record temporarily unlocked (secret decrypted,
`locked = False`) when the password matches the one the key was locked
with, and raises an uncaught exception (no record is returned) when it
does not — the broad decryption attempt is made either way and the `try`
only catches `FileNotFoundError`.  In both cases the key file on disk is
not rewritten and remains locked. -/
theorem keys_get_locked_behavior (fl : FsFlags) (fresh p q : String)
    (pf : Nat → String) (pm : Bool) (sv : FStr) (sk : SecretKeyRec)
    (m : Nat) (w : World)
    (hw : w.keyfile = some ⟨sk, m⟩) (hl : sk.locked = true)
    (hs : sk.secret = some (FStr.tok (password_to_key_model q) sv))
    (hh : sk.hash = some (blake2bHexdigest q)) (hp : p ≠ "") :
    (sk.hash = some (blake2bHexdigest p) →
      db_keys_get fl fresh (some p) pf pm w =
        (Except.ok (some { sk with secret := some sv, locked := false }), w)) ∧
    (sk.hash ≠ some (blake2bHexdigest p) →
      db_keys_get fl fresh (some p) pf pm w = (Except.error (), w)) := by
  constructor
  · intro hmatch
    have hsome : some (blake2bHexdigest q) = some (blake2bHexdigest p) :=
      hh ▸ hmatch
    have he : q = p := blake2bHexdigest_inj (Option.some.inj hsome)
    subst he
    simp [db_keys_get, hw, hl, hp, keysGetLocked, hs, fernetDecrypt]
  · intro hmiss
    have hne : q ≠ p := fun h => hmiss (h ▸ hh)
    have hk : password_to_key_model q ≠ password_to_key_model p :=
      fun h => hne (password_to_key_model_inj h)
    simp [db_keys_get, hw, hl, hp, keysGetLocked, hs, fernetDecrypt, hk]

def c4sk : SecretKeyRec :=
  { secret := some (FStr.tok (password_to_key_model "right") (FStr.raw "SEC")),
    locked := true, hash := some (blake2bHexdigest "right"), secrethash := "sh" }

def c4w : World := { keyfile := some ⟨c4sk, 384⟩, settings := [] }

/-- Counterexample to C4 as stated: with a locked key file and a supplied
password whose blake2b digest does not match the stored hash,
`db_keys_get` does not return the key record without the decrypted
secret — the decryption attempt with the mismatched pass phrase raises an
exception that the function does not catch (`Except.error`). -/
theorem keys_get_wrong_password_raises_cex :
    db_keys_get fsOk "f" (some "wrong") (fun _ => "") true c4w =
      (Except.error (), c4w) := rfl

/-- Witness for the amended C4 at a concrete locked key file: the matching
password temporarily unlocks the returned record without touching disk. -/
theorem keys_get_locked_behavior_app :
    (c4sk.hash = some (blake2bHexdigest "right") →
      db_keys_get fsOk "f" (some "right") (fun _ => "") true c4w =
        (Except.ok (some { c4sk with
                             secret := some (FStr.raw "SEC"),
                             locked := false }), c4w)) ∧
    (c4sk.hash ≠ some (blake2bHexdigest "right") →
      db_keys_get fsOk "f" (some "right") (fun _ => "") true c4w =
        (Except.error (), c4w)) :=
  keys_get_locked_behavior fsOk "f" "right" "right" (fun _ => "") true
    (FStr.raw "SEC") c4sk 384 c4w rfl rfl rfl rfl (by decide)

def c1sk : SecretKeyRec :=
  { secret := some (FStr.raw "KEY"), locked := false, hash := some "",
    secrethash := "sh" }

def c1w : World := { keyfile := some ⟨c1sk, 420⟩, settings := [] }

/-- Witness for C1 at a concrete unlocked key file and pass phrase. -/
theorem keys_lock_unlock_roundtrip_app :
    (db_keys_lock fsOk (some "pw") "x" "y" c1w).1 = true ∧
    (db_keys_unlock fsOk (some "pw") "z" (db_keys_lock fsOk (some "pw") "x" "y" c1w).2).1 = true ∧
    (db_keys_unlock fsOk (some "pw") "z" (db_keys_lock fsOk (some "pw") "x" "y" c1w).2).2.keyfile =
      some ⟨{ c1sk with
                secret := some (FStr.raw "KEY"), locked := false,
                hash := some (blake2bHexdigest "pw") }, ownerRW⟩ :=
  keys_lock_unlock_roundtrip "pw" "x" "y" "z" (by decide) c1sk
    (FStr.raw "KEY") 420 c1w rfl rfl rfl

/-- Characterisation of `db_save_settings` when the key file exists,
is unlocked and holds a usable secret `K`: shared by C2, C3 and C6. -/
theorem save_settings_eq (fl : FsFlags) (f1 f2 : String)
    (password : Option String) (pf : Nat → String) (s : SettingsRec)
    (sk : SecretKeyRec) (K : String) (m : Nat) (w : World)
    (hw : w.keyfile = some ⟨sk, m⟩) (hl : sk.locked = false)
    (hs : sk.secret = some (FStr.raw K)) (hK : K ≠ "") :
    db_save_settings fl f1 f2 password pf s w =
      (if fl.setWriteOk then
        (if fl.setChmodOk then
          (Except.ok true,
            chmodSettings (writeSettings fl w
                (settingsFname s.database s.hostname s.environment)
                { s with secrethash := sk.secrethash,
                         pwd := fernetEncrypt K s.pwd })
              (settingsFname s.database s.hostname s.environment))
        else
          (Except.ok false,
            writeSettings fl w
              (settingsFname s.database s.hostname s.environment)
              { s with secrethash := sk.secrethash,
                       pwd := fernetEncrypt K s.pwd }))
      else (Except.ok false, w)) := by
  simp [db_save_settings, saveWriteBack, db_keys_get, hw, hl, hs,
    fstrTruthy, hK, fernetKeyOf, fernetEncrypt]

/-- Reading back the settings file just written and chmodded. -/
theorem lookup_write_chmod (fl : FsFlags) (w : World) (fname : String)
    (s : SettingsRec) :
    lookupSettings (chmodSettings (writeSettings fl w fname s) fname) fname =
      some ⟨s, ownerRW⟩ := by
  simp [lookupSettings, chmodSettings, writeSettings]

/-- Writing and chmodding a settings file leaves the key file alone. -/
theorem write_chmod_keyfile (fl : FsFlags) (w : World) (fname : String)
    (s : SettingsRec) :
    (chmodSettings (writeSettings fl w fname s) fname).keyfile = w.keyfile := by
  simp [chmodSettings, writeSettings]

/-- C3: the record `db_save_settings` writes to disk carries `pwd` equal to
the Fernet encryption of the plaintext password under the current secret
key and `secrethash` equal to the key record's `secrethash`; every other
field is taken over verbatim and the written `pwd` differs from the
plaintext, so the plaintext password is not part of the written record. -/
theorem save_settings_encrypts (fl : FsFlags) (f1 f2 : String)
    (password : Option String) (pf : Nat → String) (s : SettingsRec)
    (sk : SecretKeyRec) (K : String) (m : Nat) (w : World)
    (hw : w.keyfile = some ⟨sk, m⟩) (hl : sk.locked = false)
    (hs : sk.secret = some (FStr.raw K)) (hK : K ≠ "")
    (hres : (db_save_settings fl f1 f2 password pf s w).1 = Except.ok true) :
    lookupSettings (db_save_settings fl f1 f2 password pf s w).2
        (settingsFname s.database s.hostname s.environment) =
      some ⟨{ s with
                secrethash := sk.secrethash,
                pwd := fernetEncrypt K s.pwd }, ownerRW⟩ ∧
    fernetEncrypt K s.pwd ≠ s.pwd := by
  rw [save_settings_eq fl f1 f2 password pf s sk K m w hw hl hs hK] at hres ⊢
  by_cases hwr : fl.setWriteOk
  · by_cases hch : fl.setChmodOk
    · simp only [hwr, hch, if_true]
      exact ⟨lookup_write_chmod _ _ _ _, tok_ne K s.pwd⟩
    · simp [hwr, hch] at hres
  · simp [hwr] at hres

def c3sk : SecretKeyRec :=
  { secret := some (FStr.raw "KEY"), locked := false, hash := some "",
    secrethash := "ksh" }

def c3settings : SettingsRec :=
  { database := "sample", hostname := "localhost", protocol := "tcpip",
    port := "50000", uid := "db2inst1", pwd := FStr.raw "password",
    environment := "dev", security := "nossl", servercert := "",
    secrethash := "" }

def c3w : World := { keyfile := some ⟨c3sk, 384⟩, settings := [] }

/-- Witness for C3 at a concrete settings record and unlocked key. -/
theorem save_settings_encrypts_app :
    lookupSettings (db_save_settings fsOk "a" "b" none (fun _ => "")
        c3settings c3w).2
        (settingsFname c3settings.database c3settings.hostname
          c3settings.environment) =
      some ⟨{ c3settings with
                secrethash := c3sk.secrethash,
                pwd := fernetEncrypt "KEY" c3settings.pwd }, ownerRW⟩ ∧
    fernetEncrypt "KEY" c3settings.pwd ≠ c3settings.pwd :=
  save_settings_encrypts fsOk "a" "b" none (fun _ => "") c3settings c3sk
    "KEY" 384 c3w rfl rfl rfl (by decide) rfl

/-- C2: with a secret key file holding an unlocked key, a successful
`db_save_settings` followed by `db_load_settings` keyed by values
case-insensitively equal to the record's `environment`, `hostname` and
`database` returns a record whose `pwd` equals the original plaintext
password. -/
theorem save_load_roundtrip (fl : FsFlags) (f1 f2 f3 : String)
    (password password2 : Option String) (pf pf2 : Nat → String)
    (s : SettingsRec) (sk : SecretKeyRec) (K : String) (m : Nat) (w : World)
    (hw : w.keyfile = some ⟨sk, m⟩) (hl : sk.locked = false)
    (hs : sk.secret = some (FStr.raw K)) (hK : K ≠ "")
    (database hostname environment : String)
    (hdb : database.toLower = s.database.toLower)
    (hhn : hostname.toLower = s.hostname.toLower)
    (hen : environment.toLower = s.environment.toLower)
    (hres : (db_save_settings fl f1 f2 password pf s w).1 = Except.ok true) :
    (db_load_settings fl f3 password2 pf2 database hostname environment
        (db_save_settings fl f1 f2 password pf s w).2).1 =
      Except.ok (some { s with secrethash := sk.secrethash }) ∧
    ({ s with secrethash := sk.secrethash } : SettingsRec).pwd = s.pwd := by
  refine ⟨?_, rfl⟩
  rw [save_settings_eq fl f1 f2 password pf s sk K m w hw hl hs hK] at hres ⊢
  by_cases hwr : fl.setWriteOk
  · by_cases hch : fl.setChmodOk
    · simp only [hwr, hch, if_true]
      have hfn : settingsFname database hostname environment =
          settingsFname s.database s.hostname s.environment := by
        simp [settingsFname, hdb, hhn, hen]
      have hkw : (chmodSettings (writeSettings fl w
          (settingsFname s.database s.hostname s.environment)
          { s with
              secrethash := sk.secrethash,
              pwd := fernetEncrypt K s.pwd })
          (settingsFname s.database s.hostname s.environment)).keyfile =
          some ⟨sk, m⟩ := by
        rw [write_chmod_keyfile, hw]
      have hget : db_keys_get fl f3 password2 pf2 true
          (chmodSettings (writeSettings fl w
            (settingsFname s.database s.hostname s.environment)
            { s with
                secrethash := sk.secrethash,
                pwd := fernetEncrypt K s.pwd })
            (settingsFname s.database s.hostname s.environment)) =
          (Except.ok (some sk),
            chmodSettings (writeSettings fl w
              (settingsFname s.database s.hostname s.environment)
              { s with
                  secrethash := sk.secrethash,
                  pwd := fernetEncrypt K s.pwd })
              (settingsFname s.database s.hostname s.environment)) := by
        simp [db_keys_get, hkw, hl]
      simp [db_load_settings, hget, hfn, lookup_write_chmod, hs,
        fernetKeyOf, hK, fernetDecrypt_fernetEncrypt]
    · simp [hwr, hch] at hres
  · simp [hwr] at hres

/-- Witness for C2: save then load keyed by the same database, host and
environment recovers the plaintext password. -/
theorem save_load_roundtrip_app :
    (db_load_settings fsOk "c" none (fun _ => "") "sample" "localhost" "dev"
        (db_save_settings fsOk "a" "b" none (fun _ => "") c3settings c3w).2).1 =
      Except.ok (some { c3settings with secrethash := c3sk.secrethash }) ∧
    ({ c3settings with secrethash := c3sk.secrethash } : SettingsRec).pwd =
      c3settings.pwd :=
  save_load_roundtrip fsOk "a" "b" "c" none none (fun _ => "") (fun _ => "")
    c3settings c3sk "KEY" 384 c3w rfl rfl rfl (by decide)
    "sample" "localhost" "dev" rfl rfl rfl rfl

/-- Whenever `saveWriteBack` reports `ok true`, the resulting world is the
settings file written and chmodded. -/
theorem saveWriteBack_ok_true (fl : FsFlags) (s : SettingsRec)
    (r : Option SecretKeyRec × World)
    (h : (saveWriteBack fl s r).1 = Except.ok true) :
    ∃ sh key, (saveWriteBack fl s r).2 =
      chmodSettings (writeSettings fl r.2
          (settingsFname s.database s.hostname s.environment)
          { s with secrethash := sh, pwd := fernetEncrypt key s.pwd })
        (settingsFname s.database s.hostname s.environment) := by
  rcases r with ⟨k1, wr⟩
  cases k1 with
  | none => simp [saveWriteBack] at h
  | some ks =>
    cases hsec : ks.secret with
    | none => simp [saveWriteBack, hsec] at h
    | some sv =>
      cases hko : fernetKeyOf sv with
      | none => simp [saveWriteBack, hsec, hko] at h
      | some key =>
        by_cases hwr2 : fl.setWriteOk
        · by_cases hch : fl.setChmodOk
          · exact ⟨ks.secrethash, key,
              by simp [saveWriteBack, hsec, hko, hwr2, hch]⟩
          · simp [saveWriteBack, hsec, hko, hwr2, hch] at h
        · simp [saveWriteBack, hsec, hko, hwr2] at h

/-- C6: whenever `db_keys_set` returns a non-empty record, the secret key
file it wrote ends with mode exactly `S_IRUSR | S_IWUSR`; and whenever
`db_save_settings` returns `True`, the settings pickle it wrote ends with
mode exactly `S_IRUSR | S_IWUSR` (no group or other access). -/
theorem files_owner_only_permissions (fl : FsFlags) (fresh f1 f2 : String)
    (sk : SecretKeyRec) (newkey : Bool) (password : Option String)
    (pf : Nat → String) (s : SettingsRec) (w w2 : World) :
    ((db_keys_set fl fresh sk newkey w).1 ≠ none →
      ∃ c, (db_keys_set fl fresh sk newkey w).2.keyfile =
        some ⟨c, Nat.lor S_IRUSR S_IWUSR⟩) ∧
    ((db_save_settings fl f1 f2 password pf s w2).1 = Except.ok true →
      ∃ c, lookupSettings (db_save_settings fl f1 f2 password pf s w2).2
          (settingsFname s.database s.hostname s.environment) =
        some ⟨c, Nat.lor S_IRUSR S_IWUSR⟩) := by
  constructor
  · intro h
    by_cases hwr : fl.keyWriteOk
    · by_cases hch : fl.keyChmodOk
      · refine ⟨if newkey then
            { secret := some (FStr.raw fresh), locked := false, hash := none,
              secrethash := blake2bHexdigest fresh }
          else sk, ?_⟩
        simp [db_keys_set, hwr, hch, ownerRW]
      · simp [db_keys_set, hwr, hch] at h
    · simp [db_keys_set, hwr] at h
  · intro h
    rcases hget : db_keys_get fl f1 password pf true w2 with ⟨e, w1⟩
    cases e with
    | error u =>
      simp only [db_save_settings, hget] at h
      exact absurd h (by simp)
    | ok keys0 =>
      simp only [db_save_settings, hget] at h ⊢
      obtain ⟨sh, key, hshape⟩ := saveWriteBack_ok_true fl s _ h
      rw [hshape]
      exact ⟨_, lookup_write_chmod _ _ _ _⟩

theorem stringLengthAppend (a b : String) :
    (a ++ b).length = a.length + b.length := by
  show (a ++ b).data.length = a.data.length + b.data.length
  rw [String.data_append, List.length_append]

theorem pbkdf2Iter_length (prf : List Nat → List Nat → List Nat)
    (password : List Nat) (hprf : ∀ k msg, (prf k msg).length = 32) :
    ∀ (n : Nat) (u acc : List Nat), acc.length = 32 →
      (pbkdf2Iter prf password u acc n).length = 32 := by
  intro n
  induction n with
  | zero =>
    intro u acc h
    simpa [pbkdf2Iter] using h
  | succ k ih =>
    intro u acc h
    simp only [pbkdf2Iter]
    exact ih _ _ (by simp [xorBytes, h, hprf])

theorem pbkdf2F_length (prf : List Nat → List Nat → List Nat)
    (password salt : List Nat) (hprf : ∀ k msg, (prf k msg).length = 32)
    (c i : Nat) (hc : 0 < c) :
    (pbkdf2F prf password salt c i).length = 32 := by
  cases c with
  | zero => exact absurd hc (by simp)
  | succ n =>
    simp only [pbkdf2F]
    exact pbkdf2Iter_length prf password hprf n _ _ (hprf _ _)

theorem pbkdf2_len (prf : List Nat → List Nat → List Nat)
    (password salt : List Nat) (hprf : ∀ k msg, (prf k msg).length = 32) :
    (pbkdf2 prf 32 password salt 100000 32).length = 32 := by
  have h1 : (32 + 32 - 1) / 32 = 1 := by norm_num
  have h2 : List.range 1 = [0] := rfl
  simp only [pbkdf2, h1, h2, List.map_cons, List.map_nil,
    List.flatten_cons, List.flatten_nil, List.append_nil, List.length_take]
  rw [pbkdf2F_length prf password salt hprf 100000 1 (by norm_num)]
  norm_num

theorem urlsafeB64Encode_length_mod2 :
    ∀ (n : Nat) (l : List Nat), l.length = 3 * n + 2 →
      (urlsafeB64Encode l).length = 4 * n + 4 := by
  intro n
  induction n with
  | zero =>
    intro l hl
    match l, hl with
    | [a, b], _ => rfl
  | succ k ih =>
    intro l hl
    match l, hl with
    | a :: b :: c :: rest, hl =>
      have hrest : rest.length = 3 * k + 2 := by
        simp only [List.length_cons] at hl
        omega
      simp only [urlsafeB64Encode, stringLengthAppend, ih rest hrest]
      show 4 + (4 * k + 4) = 4 * (k + 1) + 4
      ring

/-- C7: `password_to_key` is the urlsafe-base64 encoding of a 32-byte key
derived from the pass phrase by PBKDF2 over the given PRF (HMAC-SHA256 in
the source) with 100000 iterations and the fixed salt
`b'2390489409578390'`; the resulting key string always has 44 characters,
and the function is a deterministic pure function of the pass phrase (it
consults no stored state). -/
theorem password_to_key_spec (prf : List Nat → List Nat → List Nat)
    (hprf : ∀ k msg, (prf k msg).length = 32) (p : String) :
    password_to_key prf p =
      urlsafeB64Encode (pbkdf2 prf 32 (strEncode p)
        (strEncode "2390489409578390") 100000 32) ∧
    (pbkdf2 prf 32 (strEncode p) (strEncode "2390489409578390") 100000 32).length = 32 ∧
    (password_to_key prf p).length = 44 ∧
    ∀ q, q = p → password_to_key prf q = password_to_key prf p := by
  have hsalt : fixedSalt = strEncode "2390489409578390" := rfl
  have hlen := pbkdf2_len prf (strEncode p) fixedSalt hprf
  refine ⟨by rw [password_to_key, hsalt], by rw [← hsalt]; exact hlen, ?_,
    fun q hq => by rw [hq]⟩
  have h44 := urlsafeB64Encode_length_mod2 10
    (pbkdf2 prf 32 (strEncode p) fixedSalt 100000 32)
    (by rw [hlen])
  rw [password_to_key]
  simpa using h44

/-- Witness for C7 with a concrete length-32 PRF and pass phrase. -/
theorem password_to_key_spec_app :
    (password_to_key (fun _ _ => List.replicate 32 0) "a").length = 44 :=
  (password_to_key_spec (fun _ _ => List.replicate 32 0)
    (fun _ _ => by simp) "a").2.2.1

/-- The failure cases of C9: the query (prepare / execute / first fetch) or
the CSV writing (opening the tmp file, the header row, a data row) raises
inside the `try`. -/
def queryOrWriteRaises (env : ExportEnv) : Prop :=
  env.prepareOk = false ∨ env.executeRes = none ∨
  (env.executeRes = some true ∧
    (env.firstFetchOk = false ∨ env.openTmpOk = false ∨
     (env.columns = none ∧ (env.writeHeaders = true ∨ env.rows ≠ [])) ∨
     (env.columns ≠ none ∧ env.rowFail ≠ none)))

/-- A `True` result of the unlink-and-rename tail leaves no tmp file and an
existing CSV file (the renamed tmp content). -/
theorem finishExport_true (env : ExportEnv) (fs : CsvFs)
    (h : (finishExport env fs).1 = true) :
    (finishExport env fs).2.tmp = none ∧
    ∃ t, (finishExport env fs).2.csv = some t := by
  by_cases hul : env.unlinkOk
  · rcases htmp : fs.tmp with _ | t
    · simp [finishExport, hul, htmp] at h
    · by_cases hrn : env.renameOk
      · simp [finishExport, hul, htmp, hrn]
      · simp [finishExport, hul, htmp, hrn] at h
  · simp [finishExport, hul] at h

/-- C9: when the database query or the CSV writing raises, `export_table`
returns `False` and the previously existing CSV file is byte-for-byte
unchanged; and whenever `export_table` returns `True`, the CSV file holds
content that arrived by renaming the tmp file over it (the tmp file is
gone and the CSV file exists). -/
theorem export_table_failure_atomic (env : ExportEnv) (fs : CsvFs) :
    (queryOrWriteRaises env →
      (export_table env fs).1 = false ∧
      (export_table env fs).2.csv = fs.csv) ∧
    ((export_table env fs).1 = true →
      (export_table env fs).2.tmp = none ∧
      ∃ t, (export_table env fs).2.csv = some t) := by
  obtain ⟨pr, cols, er, ff, rows, rf, wh, ot, ul, rn⟩ := env
  obtain ⟨csv, tmp⟩ := fs
  constructor
  · intro h
    simp only [queryOrWriteRaises] at h
    cases pr
    · simp [export_table]
    · rcases er with _ | b
      · simp [export_table]
      · cases b
        · simp at h
        · cases ff
          · simp [export_table]
          · cases ot
            · simp [export_table]
            · rcases cols with _ | cs
              · cases wh
                · rcases rows with _ | ⟨r, rs⟩
                  · simp at h
                  · simp [export_table, streamRows]
                · simp [export_table]
              · rcases rf with _ | k
                · simp at h
                · cases wh <;> simp [export_table, streamRows]
  · intro hres
    cases pr
    · simp [export_table] at hres
    · rcases er with _ | b
      · simp [export_table] at hres
      · cases b
        · have hres2 : (finishExport
              ⟨true, cols, some false, ff, rows, rf, wh, ot, ul, rn⟩
              ⟨csv, tmp⟩).1 = true := by
            simpa [export_table] using hres
          have h2 := finishExport_true _ _ hres2
          simpa [export_table] using h2
        · cases ff
          · simp [export_table] at hres
          · cases ot
            · simp [export_table] at hres
            · cases wh
              · rcases cols with _ | cs
                · rcases rows with _ | ⟨r, rs⟩
                  · have hres2 : (finishExport
                        ⟨true, none, some true, true, [], rf, false, true, ul, rn⟩
                        ⟨csv, some []⟩).1 = true := by
                      simpa [export_table, streamRows] using hres
                    have h2 := finishExport_true _ _ hres2
                    simpa [export_table, streamRows] using h2
                  · simp [export_table, streamRows] at hres
                · rcases rf with _ | k
                  · have hres2 : (finishExport
                        ⟨true, some cs, some true, true, rows, none, false, true, ul, rn⟩
                        ⟨csv, some (rows.map CsvRec.row)⟩).1 = true := by
                      simpa [export_table, streamRows] using hres
                    have h2 := finishExport_true _ _ hres2
                    simpa [export_table, streamRows] using h2
                  · simp [export_table, streamRows] at hres
              · rcases cols with _ | cs
                · simp [export_table] at hres
                · rcases rf with _ | k
                  · have hres2 : (finishExport
                        ⟨true, some cs, some true, true, rows, none, true, true, ul, rn⟩
                        ⟨csv, some (CsvRec.header cs :: rows.map CsvRec.row)⟩).1 = true := by
                      simpa [export_table, streamRows] using hres
                    have h2 := finishExport_true _ _ hres2
                    simpa [export_table, streamRows] using h2
                  · simp [export_table, streamRows] at hres

/-- C8 (amended): when `export_table` succeeds and the `execute` call
reported success, the renamed CSV file holds exactly one record per
fetched row, in fetched order, preceded by exactly one header record when
headers are enabled — so the record count is the row count plus one with
headers on and the row count with them off.  (When `execute` reports
failure without raising, a leftover tmp file can be renamed instead, which
is why that hypothesis is needed.) -/
theorem export_table_success_content (env : ExportEnv) (fs : CsvFs)
    (hexec : env.executeRes = some true)
    (hres : (export_table env fs).1 = true) :
    (export_table env fs).2.csv =
      some ((if env.writeHeaders then [CsvRec.header (env.columns.getD [])]
             else []) ++ env.rows.map CsvRec.row) ∧
    ((if env.writeHeaders then [CsvRec.header (env.columns.getD [])]
      else []) ++ env.rows.map CsvRec.row).length =
      env.rows.length + (if env.writeHeaders then 1 else 0) := by
  obtain ⟨pr, cols, er, ff, rows, rf, wh, ot, ul, rn⟩ := env
  obtain ⟨csv, tmp⟩ := fs
  simp only at hexec
  subst hexec
  refine ⟨?_, by cases wh <;> simp [Nat.add_comm]⟩
  cases pr
  · simp [export_table] at hres
  · cases ff
    · simp [export_table] at hres
    · cases ot
      · simp [export_table] at hres
      · cases ul
        · cases wh <;> rcases cols with _ | cs <;> rcases rf with _ | k <;>
            rcases rows with _ | ⟨r, rs⟩ <;>
            simp [export_table, streamRows, finishExport] at hres
        · cases rn
          · cases wh <;> rcases cols with _ | cs <;> rcases rf with _ | k <;>
              rcases rows with _ | ⟨r, rs⟩ <;>
              simp [export_table, streamRows, finishExport] at hres
          · cases wh
            · rcases cols with _ | cs
              · rcases rows with _ | ⟨r, rs⟩
                · simp [export_table, streamRows, finishExport]
                · simp [export_table, streamRows] at hres
              · rcases rf with _ | k
                · simp [export_table, streamRows, finishExport]
                · simp [export_table, streamRows] at hres
            · rcases cols with _ | cs
              · simp [export_table] at hres
              · rcases rf with _ | k
                · simp [export_table, streamRows, finishExport]
                · simp [export_table, streamRows] at hres

def c8env : ExportEnv :=
  { prepareOk := true, columns := some ["C1"], executeRes := some false,
    firstFetchOk := true, rows := [], rowFail := none, writeHeaders := false,
    openTmpOk := true, unlinkOk := true, renameOk := true }

def c8fs : CsvFs := { csv := some [], tmp := some [CsvRec.row ["stale"]] }

/-- Counterexample to C8 as stated: when `ibm_db.execute` reports failure
without raising, `export_table` still unlinks the CSV file and renames a
leftover tmp file over it, returning `True` — the resulting record count
(1) differs from the fetched row count plus header count (0). -/
theorem export_table_stale_tmp_cex :
    (export_table c8env c8fs).1 = true ∧
    (export_table c8env c8fs).2.csv = some [CsvRec.row ["stale"]] ∧
    c8env.rows = [] ∧ c8env.writeHeaders = false ∧
    ¬([CsvRec.row ["stale"]].length =
      c8env.rows.length + (if c8env.writeHeaders then 1 else 0)) := by
  decide

def c8okenv : ExportEnv :=
  { prepareOk := true, columns := some ["C1"], executeRes := some true,
    firstFetchOk := true, rows := [["a"], ["b"]], rowFail := none,
    writeHeaders := true, openTmpOk := true, unlinkOk := true,
    renameOk := true }

def c8okfs : CsvFs := { csv := some [], tmp := none }

/-- Witness for the amended C8 at a concrete successful export. -/
theorem export_table_success_content_app :
    (export_table c8okenv c8okfs).2.csv =
      some ((if c8okenv.writeHeaders then
               [CsvRec.header (c8okenv.columns.getD [])]
             else []) ++ c8okenv.rows.map CsvRec.row) ∧
    ((if c8okenv.writeHeaders then [CsvRec.header (c8okenv.columns.getD [])]
      else []) ++ c8okenv.rows.map CsvRec.row).length =
      c8okenv.rows.length + (if c8okenv.writeHeaders then 1 else 0) :=
  export_table_success_content c8okenv c8okfs rfl (by decide)
